import Mathlib

/-
Verification of the mr_movin rent-recommender core (recommender.py, chatbot.py).

Conventions of the shallow embedding:
  * Text is `List Char`; `toL` converts a literal. Python string operations
    (lower, upper, strip) act per ASCII character, as they do on the data here.
  * A pandas float cell is `Option Rat` (NaN = `none`); values produced by the
    growth division, which can be infinite, live in `PFloat`. Rationals stand
    in for IEEE doubles: all quantities manipulated by the code are decimal
    rents and exact comparisons, where the two agree.
  * A DataFrame is a `List Row` kept in original order. `df.sort_values`
    ascending is modelled by a stable insertion sort by the key; descending
    is modelled by a stable insertion sort by the reversed key order, which
    keeps tied keys in original row order just as pandas' nargsort does on
    its stable path (it reverses the values before argsorting and the
    indexer after).  Theorems about query results either hold for any
    correct sort or say so explicitly (reverse equality only without ties).
  * Boolean masking with NA values (pandas raises) is modelled by `Except`.
-/

deriving instance DecidableEq for Except

namespace MrMovin

/-! ### Character and string helpers -/

def toL (s : String) : List Char := s.data

def wsChar (c : Char) : Bool :=
  c == ' ' || c == '\t' || c == '\n' || c == '\r' || c == '\x0b' || c == '\x0c'

def wordChar (c : Char) : Bool := c.isAlpha || c.isDigit || c == '_'

def lowerL (l : List Char) : List Char := l.map Char.toLower

def upperL (l : List Char) : List Char := l.map Char.toUpper

def stripL (l : List Char) : List Char :=
  ((l.dropWhile wsChar).reverse.dropWhile wsChar).reverse

def stripSet (bad : List Char) (l : List Char) : List Char :=
  ((l.dropWhile (· ∈ bad)).reverse.dropWhile (· ∈ bad)).reverse

/-- Python substring containment: `needle in hay`. -/
def hasSub (needle : List Char) : List Char → Bool
  | [] => needle == []
  | c :: t => needle.isPrefixOf (c :: t) || hasSub needle t

def lexLe : List Char → List Char → Bool
  | [], _ => true
  | _ :: _, [] => false
  | a :: as, b :: bs =>
    if a.toNat < b.toNat then true
    else if a.toNat = b.toNat then lexLe as bs
    else false

/-! ### Pandas-style float values

`pctChange` mirrors `(current - baseline) / baseline * 100.0` in IEEE
arithmetic on nullable columns: NaN propagates, x/0 is signed infinity,
0/0 is NaN. -/

inductive PFloat where
  | nan
  | pinf
  | ninf
  | fin (q : Rat)
deriving DecidableEq, Repr

def pctChange (baseline current : Option Rat) : PFloat :=
  match baseline, current with
  | none, _ => PFloat.nan
  | _, none => PFloat.nan
  | some b, some c =>
    if b = 0 then
      if c = 0 then PFloat.nan
      else if 0 < c then PFloat.pinf
      else PFloat.ninf
    else PFloat.fin ((c - b) / b * 100)

/-- `_label_trend` of recommender.py: NaN is unknown, pct > 10 rising,
pct < -5 falling, else flat.  An infinite pct compares like infinity. -/
def labelTrend (p : PFloat) : List Char :=
  match p with
  | PFloat.nan => toL ("unknown")
  | PFloat.pinf => toL ("rising")
  | PFloat.ninf => toL ("falling")
  | PFloat.fin q =>
    if 10 < q then toL ("rising")
    else if q < -5 then toL ("falling")
    else toL ("flat")

/-! ### Data model -/

/-- A parsed CSV row after column renaming and numeric coercion
(City -> regionName, StateName -> state). -/
structure RawRow where
  regionName : Option (List Char)
  state : Option (List Char)
  rent2021 : Option Rat
  rent2022 : Option Rat
  currentRent : Option Rat
deriving DecidableEq, Repr

/-- A row of the cached DataFrame, after `_compute_growth_columns`. -/
structure Row where
  regionName : Option (List Char)
  state : Option (List Char)
  rent2021 : Option Rat
  rent2022 : Option Rat
  currentRent : Option Rat
  rent3yrPct : PFloat
  rent5yrPct : PFloat
  trendLabel : List Char
deriving DecidableEq, Repr

/-- `_compute_growth_columns` applied to one row: the 3-year change uses the
2022 column, the 5-year change the 2021 column, and the trend label is
computed from the 3-year percentage change. -/
def compute_growth_row (r : RawRow) : Row :=
  { regionName := r.regionName
    state := r.state
    rent2021 := r.rent2021
    rent2022 := r.rent2022
    currentRent := r.currentRent
    rent3yrPct := pctChange r.rent2022 r.currentRent
    rent5yrPct := pctChange r.rent2021 r.currentRent
    trendLabel := labelTrend (pctChange r.rent2022 r.currentRent) }

/-! ### Query engine -/

/-- `df[df["RegionName"] != "United States"]`, applied unless the
include flag is set. NaN names compare unequal, hence are kept. -/
def usFilter (inc : Bool) (ds : List Row) : List Row :=
  if inc then ds
  else ds.filter (fun r => r.regionName != some (toL ("United States")))

/-- `if state: df = df[df["State"].fillna("").str.upper() == state.upper()]`.
A falsy (absent or empty) state applies no filter at all. -/
def stateFilter (state : Option (List Char)) (ds : List Row) : List Row :=
  match state with
  | none => ds
  | some s =>
    if s = [] then ds
    else ds.filter (fun r => upperL (r.state.getD []) == upperL s)

/-- `if trend: df = df[df["trend_label"] == trend]`. -/
def trendFilter (trend : Option (List Char)) (ds : List Row) : List Row :=
  match trend with
  | none => ds
  | some t =>
    if t = [] then ds
    else ds.filter (fun r => r.trendLabel == t)

def rentKey (r : Row) : Rat := r.currentRent.getD 0

def rentLe (a b : Row) : Prop := rentKey a ≤ rentKey b

instance : DecidableRel rentLe := fun a b => inferInstanceAs (Decidable (rentKey a ≤ rentKey b))

instance : IsTotal Row rentLe := ⟨fun a b => le_total (rentKey a) (rentKey b)⟩

instance : IsTrans Row rentLe := ⟨fun _ _ _ hab hbc => le_trans hab hbc⟩

/-- The descending counterpart of `rentLe`: sorting a list stably by this
relation yields non-increasing rents with ties kept in original order. -/
def rentGe (a b : Row) : Prop := rentKey b ≤ rentKey a

instance : DecidableRel rentGe := fun a b => inferInstanceAs (Decidable (rentKey b ≤ rentKey a))

instance : IsTotal Row rentGe := ⟨fun a b => le_total (rentKey b) (rentKey a)⟩

instance : IsTrans Row rentGe := ⟨fun _ _ _ hab hbc => le_trans hbc hab⟩

/-- Total order on pandas float values as numpy sorts them:
-inf < finite < +inf (NaN rows are dropped before any sort here). -/
def pfle : PFloat → PFloat → Bool
  | PFloat.nan, _ => true
  | _, PFloat.nan => false
  | PFloat.ninf, _ => true
  | _, PFloat.ninf => false
  | PFloat.fin a, PFloat.fin b => decide (a ≤ b)
  | PFloat.fin _, PFloat.pinf => true
  | PFloat.pinf, PFloat.fin _ => false
  | PFloat.pinf, PFloat.pinf => true

inductive Horizon where
  | h3
  | h5
deriving DecidableEq, Repr

inductive Direction where
  | up
  | down
deriving DecidableEq, Repr

def pctKey (h : Horizon) (r : Row) : PFloat :=
  match h with
  | Horizon.h3 => r.rent3yrPct
  | Horizon.h5 => r.rent5yrPct

def pctLe (h : Horizon) (a b : Row) : Prop := pfle (pctKey h a) (pctKey h b) = true

instance (h : Horizon) : DecidableRel (pctLe h) :=
  fun a b => inferInstanceAs (Decidable (pfle (pctKey h a) (pctKey h b) = true))

def pctGe (h : Horizon) (a b : Row) : Prop := pfle (pctKey h b) (pctKey h a) = true

instance (h : Horizon) : DecidableRel (pctGe h) :=
  fun a b => inferInstanceAs (Decidable (pfle (pctKey h b) (pctKey h a) = true))

instance (h : Horizon) : IsTotal Row (pctGe h) :=
  ⟨by
    intro a b
    unfold pctGe
    generalize pctKey h a = x
    generalize pctKey h b = y
    cases x <;> cases y <;> simp [pfle] <;> exact le_total _ _⟩

instance (h : Horizon) : IsTrans Row (pctGe h) :=
  ⟨by
    intro a b c
    unfold pctGe
    generalize pctKey h a = x
    generalize pctKey h b = y
    generalize pctKey h c = z
    cases x <;> cases y <;> cases z <;> simp [pfle] <;>
      exact fun h1 h2 => le_trans h2 h1⟩

/-- `filter_by_budget` of recommender.py: drop the aggregate row, drop null
rents, keep rent <= budget, optional state and trend filters, sort ascending
by current rent. -/
def filter_by_budget (budget : Rat) (state trend : Option (List Char))
    (inc : Bool) (ds : List Row) : List Row :=
  List.insertionSort rentLe
    (trendFilter trend
      (stateFilter state
        (((usFilter inc ds).filter (fun r => r.currentRent.isSome)).filter
          (fun r => decide (rentKey r ≤ budget)))))

/-- `cheapest_metros`: aggregate filter, state filter, drop null rents, sort
ascending, take the first `limit`. -/
def cheapest_metros (limit : Nat) (state : Option (List Char))
    (inc : Bool) (ds : List Row) : List Row :=
  (List.insertionSort rentLe
    ((stateFilter state (usFilter inc ds)).filter (fun r => r.currentRent.isSome))).take limit

/-- `most_expensive_metros`: same pipeline sorted descending.  Pandas keeps
tied keys in original row order on its stable descending path (nargsort
reverses the values before argsorting and the indexer after), which a stable
sort by the reversed key order reproduces. -/
def most_expensive_metros (limit : Nat) (state : Option (List Char))
    (inc : Bool) (ds : List Row) : List Row :=
  (List.insertionSort rentGe
    ((stateFilter state (usFilter inc ds)).filter (fun r => r.currentRent.isSome))).take limit

/-- `best_rent_growth`: pick the pct-change column for the horizon, drop NaN
rows, sort (ascending exactly when direction is down), take `limit`. -/
def best_rent_growth (limit : Nat) (h : Horizon) (d : Direction)
    (state : Option (List Char)) (inc : Bool) (ds : List Row) : List Row :=
  let base := (stateFilter state (usFilter inc ds)).filter
    (fun r => pctKey h r != PFloat.nan)
  (if d = Direction.down then List.insertionSort (pctLe h) base
   else List.insertionSort (pctGe h) base).take limit

/-- `available_states`: non-null states, stripped and uppercased, unique,
non-empty, sorted lexicographically. -/
def available_states (ds : List Row) : List (List Char) :=
  List.insertionSort (fun a b => lexLe a b = true)
    ((((ds.filterMap (fun r => r.state)).map (fun s => upperL (stripL s))).dedup).filter
      (fun s => s != []))

inductive QueryError where
  | naMask
deriving DecidableEq, Repr

/-- `_find` inside `compare_metros`: case-insensitive exact match first, then
a substring ("contains") pass.  The contains mask evaluates to NA on a null
RegionName, and pandas boolean indexing then raises - modelled as an error. -/
def findMetro (metro : List Char) (ds : List Row) : Except QueryError (Option Row) :=
  let ml := lowerL metro
  match ds.filter (fun r => (r.regionName.map lowerL) == some ml) with
  | r :: _ => Except.ok (some r)
  | [] =>
    if ds.any (fun r => r.regionName == none) then Except.error QueryError.naMask
    else
      match ds.filter (fun r => hasSub ml (lowerL (r.regionName.getD []))) with
      | r :: _ => Except.ok (some r)
      | [] => Except.ok none

/-- `compare_metros`: resolve both names independently, side a first. -/
def compare_metros (a b : List Char) (ds : List Row) :
    Except QueryError (Option Row × Option Row) :=
  match findMetro a ds with
  | Except.error e => Except.error e
  | Except.ok ia =>
    match findMetro b ds with
    | Except.error e => Except.error e
    | Except.ok ib => Except.ok (ia, ib)

/-! ### Dataset loader

The filesystem is abstracted as an existence predicate on paths, and the CSV
reader as a function producing parsed rows; `read_table` fails exactly when
the resolved path does not exist (pandas raising on a missing file). -/

def dataFilename : List Char := toL ("new cleaned data.csv")

def joinP (a b : List Char) : List Char := a ++ '/' :: b

structure FileSystem where
  ex : List Char → Bool

/-- `_get_data_path`: the module directory first, then its data/ subfolder,
finally the bare filename (resolved against the working directory). -/
def get_data_path (here : List Char) (fs : FileSystem) : List Char :=
  if fs.ex (joinP here dataFilename) then joinP here dataFilename
  else if fs.ex (joinP (joinP here (toL ("data"))) dataFilename) then
    joinP (joinP here (toL ("data"))) dataFilename
  else dataFilename

inductive DataError where
  | dataNotFound
deriving DecidableEq, Repr

def read_table (fs : FileSystem) (read : List Char → List RawRow) (path : List Char) :
    Except DataError (List RawRow) :=
  if fs.ex path then Except.ok (read path) else Except.error DataError.dataNotFound

/-- `load_data` without the cache: resolve the path, read, rename and coerce
(absorbed into `RawRow`), add the growth columns. -/
def load_data (here : List Char) (fs : FileSystem) (read : List Char → List RawRow) :
    Except DataError (List Row) :=
  match read_table fs read (get_data_path here fs) with
  | Except.error e => Except.error e
  | Except.ok rows => Except.ok (rows.map compute_growth_row)

/-- The module-level `_DATA_CACHE` cell. -/
structure ModuleState where
  cache : Option (List Row)
deriving DecidableEq

/-- Importing recommender.py only initialises `_DATA_CACHE = None`; no file
access happens until the first `load_data` call. -/
def importModule : ModuleState := { cache := none }

/-- `load_data` as written: return the cache when populated, otherwise load
and populate it. -/
def load_data_cached (st : ModuleState) (here : List Char) (fs : FileSystem)
    (read : List Char → List RawRow) : Except DataError (List Row × ModuleState) :=
  match st.cache with
  | some df => Except.ok (df, st)
  | none =>
    match load_data here fs read with
    | Except.error e => Except.error e
    | Except.ok df => Except.ok (df, { cache := some df })

/-! ### Budget parsing

`_parse_budget` removes commas, turns dollar signs into spaces, and collects
the matches of the pattern digits-optional-dot-digits left to right; the
scanner below emits exactly those maximal matches.  `float` on such a match
is modelled exactly over the rationals. -/

def natOfDigits (ds : List Char) : Nat :=
  ds.foldl (fun a c => a * 10 + (c.toNat - 48)) 0

/-- The value of a numeral with integer digits `ip` and fractional digits
`fp`, i.e. ip.fp read in decimal. -/
def ratOfNum (ip fp : List Char) : Rat :=
  mkRat (natOfDigits ip * 10 ^ fp.length + natOfDigits fp) (10 ^ fp.length)

inductive ScanMode where
  | out
  | intp (ds : List Char)
  | frac (ds fs : List Char)

def scanNums : ScanMode → List Char → List Rat
  | ScanMode.out, [] => []
  | ScanMode.intp ds, [] => [ratOfNum ds []]
  | ScanMode.frac ds fs, [] => [ratOfNum ds fs]
  | ScanMode.out, c :: r =>
    if c.isDigit then scanNums (ScanMode.intp [c]) r else scanNums ScanMode.out r
  | ScanMode.intp ds, c :: r =>
    if c.isDigit then scanNums (ScanMode.intp (ds ++ [c])) r
    else if c == '.' then scanNums (ScanMode.frac ds []) r
    else ratOfNum ds [] :: scanNums ScanMode.out r
  | ScanMode.frac ds fs, c :: r =>
    if c.isDigit then scanNums (ScanMode.frac ds (fs ++ [c])) r
    else ratOfNum ds fs :: scanNums ScanMode.out r

def budget_clean (l : List Char) : List Char :=
  (l.filter (fun c => c != ',')).map (fun c => if c = '$' then ' ' else c)

def findNums (text : List Char) : List Rat :=
  scanNums ScanMode.out (budget_clean text)

def parse_budget (text : List Char) : Option Rat :=
  let nums := findNums text
  match nums.find? (fun v => decide (300 ≤ v ∧ v ≤ 20000)) with
  | some v => some v
  | none => nums.head?

/-! ### State parsing

Tier 1 is the first (leftmost) match of the case-insensitive pattern
word-boundary, "in", whitespace, two letters, word-boundary; tier 2 walks
the maximal word-character runs of exactly two alphabetic characters. -/

def usStates : List (List Char) :=
  [toL ("AL"), toL ("AK"), toL ("AZ"), toL ("AR"), toL ("CA"), toL ("CO"),
   toL ("CT"), toL ("DE"), toL ("FL"), toL ("GA"), toL ("HI"), toL ("ID"),
   toL ("IL"), toL ("IN"), toL ("IA"), toL ("KS"), toL ("KY"), toL ("LA"),
   toL ("ME"), toL ("MD"), toL ("MA"), toL ("MI"), toL ("MN"), toL ("MS"),
   toL ("MO"), toL ("MT"), toL ("NE"), toL ("NV"), toL ("NH"), toL ("NJ"),
   toL ("NM"), toL ("NY"), toL ("NC"), toL ("ND"), toL ("OH"), toL ("OK"),
   toL ("OR"), toL ("PA"), toL ("RI"), toL ("SC"), toL ("SD"), toL ("TN"),
   toL ("TX"), toL ("UT"), toL ("VT"), toL ("VA"), toL ("WA"), toL ("WV"),
   toL ("WI"), toL ("WY")]

def prevNonWord : Option Char → Bool
  | none => true
  | some c => !(wordChar c)

def boundaryAfter : List Char → Bool
  | [] => true
  | c :: _ => !(wordChar c)

/-- After the literal "in": at least one whitespace character (taken
greedily), then exactly two letters closed by a word boundary. -/
def tier1Tail (rest : List Char) : Option (Char × Char) :=
  if rest.takeWhile wsChar = [] then none
  else
    match rest.dropWhile wsChar with
    | a :: b :: r2 =>
      if a.isAlpha && b.isAlpha && boundaryAfter r2 then some (a, b) else none
    | _ => none

def tier1Aux : Option Char → List Char → Option (Char × Char)
  | _, [] => none
  | _, [_] => none
  | prev, c1 :: c2 :: rest =>
    if prevNonWord prev && c1.toLower == 'i' && c2.toLower == 'n' then
      match tier1Tail rest with
      | some p => some p
      | none => tier1Aux (some c1) (c2 :: rest)
    else tier1Aux (some c1) (c2 :: rest)

def tier1 (text : List Char) : Option (Char × Char) := tier1Aux none text

def wordRunsAux : List Char → List Char → List (List Char)
  | acc, [] => if acc = [] then [] else [acc.reverse]
  | acc, c :: r =>
    if wordChar c then wordRunsAux (c :: acc) r
    else if acc = [] then wordRunsAux [] r
    else acc.reverse :: wordRunsAux [] r

def wordRuns (text : List Char) : List (List Char) := wordRunsAux [] text

/-- The standalone-token pass: two-letter tokens that are all caps in the
original text, checked against the state set, first hit wins. -/
def tier2 (text : List Char) : Option (List Char) :=
  ((wordRuns text).filter (fun t => t.length == 2 && t.all Char.isAlpha)).find?
    (fun t => t.all Char.isUpper && usStates.contains t)

/-- The confirmed result of tier 1: the first "in XX" pattern match, kept
only when its uppercased code is one of the fifty states. -/
def tier1Code (text : List Char) : Option (List Char) :=
  match tier1 text with
  | some (a, b) =>
    if usStates.contains ([a.toUpper, b.toUpper]) then some ([a.toUpper, b.toUpper])
    else none
  | none => none

/-- `_parse_state`: tier 1, falling through to tier 2 when the pattern is
absent or its code is not a state. -/
def parse_state (text : List Char) : Option (List Char) :=
  match tier1 text with
  | some (a, b) =>
    if usStates.contains ([a.toUpper, b.toUpper]) then some ([a.toUpper, b.toUpper])
    else tier2 text
  | none => tier2 text

/-! ### Compare / category / growth / greeting parsing -/

/-- Split on the case-insensitive word "and" (boundary on both sides),
non-overlapping, left to right, as re.split does. -/
def splitAndAux : Option Char → List Char → List Char → List (List Char)
  | _, acc, [] => [acc.reverse]
  | prev, acc, a :: b :: c :: r2 =>
    if prevNonWord prev && a.toLower == 'a' && b.toLower == 'n' && c.toLower == 'd'
        && boundaryAfter r2 then
      acc.reverse :: splitAndAux (some c) [] r2
    else splitAndAux (some a) (a :: acc) (b :: c :: r2)
  | _, acc, c :: r => splitAndAux (some c) (c :: acc) r

def splitAnd (text : List Char) : List (List Char) := splitAndAux none [] text

/-- re.sub("^compare", "", s, IGNORECASE): one anchored removal. -/
def dropComparePre (s : List Char) : List Char :=
  if (toL ("compare")).isPrefixOf (lowerL s) then s.drop 7 else s

def parse_compare_request (text : List Char) : Option (List Char × List Char) :=
  if hasSub (toL ("compare")) (lowerL text) then
    match (splitAnd text).reverse with
    | b0 :: a0 :: _ =>
      let a := stripSet (toL (",. ")) (dropComparePre a0)
      let b := stripSet (toL (",. ")) b0
      if a != [] && b != [] then some (a, b) else none
    | _ => none
  else none

def cheapKws : List (List Char) :=
  [toL ("cheapest"), toL ("low cost"), toL ("least expensive"),
   toL ("most affordable"), toL ("affordable metros")]

def is_cheapest_request (text : List Char) : Bool :=
  cheapKws.any (fun k => hasSub k (lowerL text))

def expensiveKws : List (List Char) :=
  [toL ("most expensive"), toL ("high cost"), toL ("priciest"), toL ("top expensive")]

def is_most_expensive_request (text : List Char) : Bool :=
  expensiveKws.any (fun k => hasSub k (lowerL text))

def upKws : List (List Char) :=
  [toL ("up-and-coming"), toL ("up and coming"), toL ("rising"), toL ("growing")]

def downKws : List (List Char) :=
  [toL ("declining"), toL ("falling"), toL ("going down"), toL ("cooling")]

def fiveKws : List (List Char) :=
  [toL ("5 year"), toL ("five year"), toL ("5-year")]

def parse_growth_intent (text : List Char) : Option (Horizon × Direction) :=
  let t := lowerL text
  if upKws.any (fun k => hasSub k t) then
    some (if fiveKws.any (fun k => hasSub k t) then Horizon.h5 else Horizon.h3, Direction.up)
  else if downKws.any (fun k => hasSub k t) then
    some (if fiveKws.any (fun k => hasSub k t) then Horizon.h5 else Horizon.h3, Direction.down)
  else none

def greetingPhrases : List (List Char) :=
  [toL ("hi"), toL ("hello"), toL ("hey"), toL ("yo"), toL ("hi there"),
   toL ("good morning"), toL ("good evening")]

def is_greeting (text : List Char) : Bool :=
  let t := stripL (lowerL text)
  greetingPhrases.contains t || (toL ("hi ")).isPrefixOf t
    || (toL ("hello ")).isPrefixOf t || (toL ("hey ")).isPrefixOf t

def relocationKws : List (List Char) :=
  [toL ("rent"), toL ("rental"), toL ("apartment"), toL ("flat"), toL ("housing"),
   toL ("move"), toL ("moving"), toL ("relocate"), toL ("relocation"), toL ("city"),
   toL ("metro"), toL ("neighborhood"), toL ("budget"), toL ("cheapest"),
   toL ("affordable"), toL ("expensive"), toL ("compare"), toL ("cost of living"),
   toL ("up-and-coming"), toL ("up and coming"), toL ("declining")]

def is_relocation_related (text : List Char) : Bool :=
  relocationKws.any (fun k => hasSub k (lowerL text))

/-! ### Chat routing

The response composer renders deterministic templates from the data below,
so each template is modelled as one constructor carrying exactly the data
the template interpolates.  `growthNoMatch` is the literal reply
"I couldn't find metros matching that growth pattern in the dataset." -/

inductive ChatResponse where
  | intro
  | hello
  | fallbackHelp
  | stateNotFound (state : List Char) (available : List (List Char))
  | compareNeither (a b : List Char)
  | compareOneMissing (missing : List Char)
  | compareBoth (ra rb : Row)
  | growthNoMatch
  | growthList (rows : List Row) (h : Horizon) (d : Direction) (state : Option (List Char))
  | cheapestEmpty
  | cheapestList (rows : List Row) (state : Option (List Char))
  | expensiveEmpty
  | expensiveList (rows : List Row) (state : Option (List Char))
  | noBudgetEmpty
  | noBudgetList (rows : List Row) (state : Option (List Char))
  | budgetEmpty (budget : Rat)
  | budgetList (rows : List Row) (budget : Rat) (state : Option (List Char))
deriving DecidableEq, Repr

/-- The branch chain of `chat` after the state-validity check. -/
def chatAfterState (m : List Char) (state : Option (List Char)) (ds : List Row) :
    Except QueryError ChatResponse :=
  match parse_compare_request m with
  | some (a, b) =>
    (match compare_metros a b ds with
     | Except.error e => Except.error e
     | Except.ok (none, none) => Except.ok (ChatResponse.compareNeither a b)
     | Except.ok (none, some _) => Except.ok (ChatResponse.compareOneMissing a)
     | Except.ok (some _, none) => Except.ok (ChatResponse.compareOneMissing b)
     | Except.ok (some ra, some rb) => Except.ok (ChatResponse.compareBoth ra rb))
  | none =>
    match parse_growth_intent m with
    | some (h, d) =>
      if best_rent_growth 10 h d state false ds = [] then Except.ok ChatResponse.growthNoMatch
      else Except.ok (ChatResponse.growthList (best_rent_growth 10 h d state false ds) h d state)
    | none =>
      if is_cheapest_request m then
        (if cheapest_metros 10 state false ds = [] then Except.ok ChatResponse.cheapestEmpty
         else Except.ok (ChatResponse.cheapestList (cheapest_metros 10 state false ds) state))
      else if is_most_expensive_request m then
        (if most_expensive_metros 10 state false ds = [] then Except.ok ChatResponse.expensiveEmpty
         else Except.ok (ChatResponse.expensiveList (most_expensive_metros 10 state false ds) state))
      else
        match parse_budget m with
        | none =>
          if cheapest_metros 10 state false ds = [] then Except.ok ChatResponse.noBudgetEmpty
          else Except.ok (ChatResponse.noBudgetList (cheapest_metros 10 state false ds) state)
        | some b =>
          if filter_by_budget b state none false ds = [] then
            Except.ok (ChatResponse.budgetEmpty b)
          else
            Except.ok (ChatResponse.budgetList ((filter_by_budget b state none false ds).take 10)
              b state)

/-- `chat` of chatbot.py over a loaded dataset: strip, greeting checks,
off-topic fallback, state validation against the data, then the branch
chain.  Exceptions escaping `compare_metros` propagate out of `chat`. -/
def chat (message : List Char) (ds : List Row) : Except QueryError ChatResponse :=
  let m := stripL message
  if m = [] then Except.ok ChatResponse.intro
  else if is_greeting m then Except.ok ChatResponse.hello
  else if !(is_relocation_related m) then Except.ok ChatResponse.fallbackHelp
  else
    match parse_state m with
    | some s =>
      if available_states ds != [] && !((available_states ds).contains s) then
        Except.ok (ChatResponse.stateNotFound s (available_states ds))
      else chatAfterState m (some s) ds
    | none => chatAfterState m none ds

/-! ### Concrete rows used by witnesses and counterexamples -/

def w1Row : Row :=
  { regionName := some (toL ("Lansing, MI")), state := some (toL ("mi")),
    rent2021 := some 800, rent2022 := some 900, currentRent := some 950,
    rent3yrPct := PFloat.fin 5, rent5yrPct := PFloat.fin 18,
    trendLabel := toL ("flat") }

def w10Row : Row :=
  { regionName := some (toL ("El Paso, TX")), state := some (toL ("TX")),
    rent2021 := some 900, rent2022 := some 1000, currentRent := some 1100,
    rent3yrPct := PFloat.fin 10, rent5yrPct := PFloat.fin 22,
    trendLabel := toL ("flat") }

def w10NullRow : Row :=
  { regionName := some (toL ("Nowhere")), state := none,
    rent2021 := some 700, rent2022 := some 700, currentRent := some 700,
    rent3yrPct := PFloat.fin 0, rent5yrPct := PFloat.fin 0,
    trendLabel := toL ("flat") }

def usRowC3 : Row :=
  { regionName := some (toL ("United States")), state := some (toL ("ZZ")),
    rent2021 := some 1500, rent2022 := some 1600, currentRent := some 1700,
    rent3yrPct := PFloat.fin 5, rent5yrPct := PFloat.fin 13,
    trendLabel := toL ("flat") }

def w3Row : Row :=
  { regionName := some (toL ("Boise, ID")), state := some (toL ("ID")),
    rent2021 := some 1100, rent2022 := some 1150, currentRent := some 1200,
    rent3yrPct := PFloat.fin 4, rent5yrPct := PFloat.fin 9,
    trendLabel := toL ("flat") }

def cheapRowC2 : Row :=
  { regionName := some (toL ("Akron, OH")), state := some (toL ("OH")),
    rent2021 := some 900, rent2022 := some 950, currentRent := some 1000,
    rent3yrPct := PFloat.fin 5, rent5yrPct := PFloat.fin 11,
    trendLabel := toL ("flat") }

def richRowC2 : Row :=
  { regionName := some (toL ("San Jose, CA")), state := some (toL ("CA")),
    rent2021 := some 1800, rent2022 := some 1900, currentRent := some 2000,
    rent3yrPct := PFloat.fin 5, rent5yrPct := PFloat.fin 11,
    trendLabel := toL ("flat") }

def growthRowC5 : Row :=
  { regionName := some (toL ("Detroit, MI")), state := some (toL ("MI")),
    rent2021 := some 1000, rent2022 := some 1200, currentRent := some 1080,
    rent3yrPct := PFloat.fin (-10), rent5yrPct := PFloat.fin 8,
    trendLabel := toL ("falling") }

theorem usFilter_excludes {ds : List Row} {r : Row} (h : r ∈ usFilter false ds) :
    r.regionName ≠ some (toL ("United States")) := by
  unfold usFilter at h
  simp only [Bool.false_eq_true, if_false] at h
  have := (List.mem_filter.mp h).2
  simpa using this

theorem usFilter_true (ds : List Row) : usFilter true ds = ds := rfl

theorem stateFilter_some (s : List Char) (ds : List Row) :
    stateFilter (some s) ds =
      if s = [] then ds
      else ds.filter (fun r => upperL (r.state.getD []) == upperL s) := rfl

theorem mem_stateFilter {st : Option (List Char)} {ds : List Row} {r : Row}
    (h : r ∈ stateFilter st ds) : r ∈ ds := by
  cases st with
  | none => exact h
  | some s =>
    rw [stateFilter_some] at h
    split at h
    · exact h
    · exact (List.mem_filter.mp h).1

theorem stateFilter_matches {s : List Char} {ds : List Row} {r : Row} (hs : s ≠ [])
    (h : r ∈ stateFilter (some s) ds) : upperL (r.state.getD []) = upperL s := by
  rw [stateFilter_some, if_neg hs] at h
  have := (List.mem_filter.mp h).2
  simpa using this

theorem stateFilter_not_null {s : List Char} {ds : List Row} {r : Row} (hs : s ≠ [])
    (h : r ∈ stateFilter (some s) ds) : r.state ≠ none := by
  intro hn
  have hm := stateFilter_matches hs h
  rw [hn] at hm
  have h0 : upperL s = [] := hm.symm
  unfold upperL at h0
  exact hs (List.map_eq_nil_iff.mp h0)

theorem stateFilter_none (ds : List Row) : stateFilter none ds = ds := rfl

theorem stateFilter_empty (ds : List Row) : stateFilter (some []) ds = ds := rfl

theorem trendFilter_some (t : List Char) (ds : List Row) :
    trendFilter (some t) ds =
      if t = [] then ds else ds.filter (fun r => r.trendLabel == t) := rfl

theorem mem_trendFilter {tr : Option (List Char)} {ds : List Row} {r : Row}
    (h : r ∈ trendFilter tr ds) : r ∈ ds := by
  cases tr with
  | none => exact h
  | some t =>
    rw [trendFilter_some] at h
    split at h
    · exact h
    · exact (List.mem_filter.mp h).1

theorem trendFilter_matches {t : List Char} {ds : List Row} {r : Row} (ht : t ≠ [])
    (h : r ∈ trendFilter (some t) ds) : r.trendLabel = t := by
  rw [trendFilter_some, if_neg ht] at h
  have := (List.mem_filter.mp h).2
  simpa using this

/-- Every row of `filter_by_budget` survived each of its five filters. -/
theorem mem_filter_by_budget {budget : Rat} {state trend : Option (List Char)} {inc : Bool}
    {ds : List Row} {r : Row} (h : r ∈ filter_by_budget budget state trend inc ds) :
    r ∈ trendFilter trend
      (stateFilter state
        (((usFilter inc ds).filter (fun r => r.currentRent.isSome)).filter
          (fun r => decide (rentKey r ≤ budget)))) :=
  (List.mem_insertionSort rentLe).mp h

/-! ### Claim theorems -/

/-- Claim C1: every row returned by `filter_by_budget B S T` has a non-null
current rent at most `B`, matches a given non-empty state code up to
uppercasing, and carries the given trend label; the result is sorted
non-decreasing by current rent. -/
theorem claim_C1 (budget : Rat) (state trend : Option (List Char)) (inc : Bool)
    (ds : List Row) :
    (∀ r ∈ filter_by_budget budget state trend inc ds,
      (∃ c, r.currentRent = some c ∧ c ≤ budget) ∧
      (∀ s, state = some s → s ≠ [] → upperL (r.state.getD []) = upperL s) ∧
      (∀ t, trend = some t → t ≠ [] → r.trendLabel = t)) ∧
    List.Sorted rentLe (filter_by_budget budget state trend inc ds) := by
  constructor
  · intro r hr
    have h0 := mem_filter_by_budget hr
    have h1 := mem_trendFilter h0
    have h2 := mem_stateFilter h1
    have hbud : decide (rentKey r ≤ budget) = true := (List.mem_filter.mp h2).2
    have h3 := (List.mem_filter.mp h2).1
    have hsome : r.currentRent.isSome = true := (List.mem_filter.mp h3).2
    refine ⟨?_, ?_, ?_⟩
    · cases hc : r.currentRent with
      | none => rw [hc] at hsome; exact absurd hsome (by simp)
      | some c =>
        refine ⟨c, rfl, ?_⟩
        have hle := of_decide_eq_true hbud
        unfold rentKey at hle
        rw [hc] at hle
        exact hle
    · intro s hs hsne
      rw [hs] at h1
      exact stateFilter_matches hsne h1
    · intro t ht htne
      rw [ht] at h0
      exact trendFilter_matches htne h0
  · exact List.sorted_insertionSort rentLe _

/-- Witness for C1 at a concrete dataset: the lowercase stored state "mi"
matches the requested "MI" after uppercasing. -/
theorem claim_C1_witness :
    w1Row ∈ filter_by_budget 1000 (some (toL ("MI"))) (some (toL ("flat"))) false [w1Row] ∧
    (∃ c, w1Row.currentRent = some c ∧ c ≤ 1000) ∧
    upperL (w1Row.state.getD []) = upperL (toL ("MI")) ∧
    w1Row.trendLabel = toL ("flat") := by
  have hm : w1Row ∈ filter_by_budget 1000 (some (toL ("MI"))) (some (toL ("flat"))) false
      [w1Row] := by decide
  have h := (claim_C1 1000 (some (toL ("MI"))) (some (toL ("flat"))) false [w1Row]).1 w1Row hm
  exact ⟨hm, h.1, h.2.1 _ rfl (by decide), h.2.2 _ rfl (by decide)⟩

/-- Claim C10: with a non-empty state argument none of the four
state-filtering operations returns a null-state row (null is filled with the
empty string, which matches no non-empty code); with `None` or the empty
string as the state, no state filtering is applied at all. -/
theorem claim_C10 :
    (∀ (s : List Char) (budget : Rat) (trend : Option (List Char)) (inc : Bool)
        (ds : List Row) (r : Row), s ≠ [] →
        r ∈ filter_by_budget budget (some s) trend inc ds → r.state ≠ none) ∧
    (∀ (s : List Char) (limit : Nat) (inc : Bool) (ds : List Row) (r : Row), s ≠ [] →
        r ∈ cheapest_metros limit (some s) inc ds → r.state ≠ none) ∧
    (∀ (s : List Char) (limit : Nat) (inc : Bool) (ds : List Row) (r : Row), s ≠ [] →
        r ∈ most_expensive_metros limit (some s) inc ds → r.state ≠ none) ∧
    (∀ (s : List Char) (limit : Nat) (h : Horizon) (d : Direction) (inc : Bool)
        (ds : List Row) (r : Row), s ≠ [] →
        r ∈ best_rent_growth limit h d (some s) inc ds → r.state ≠ none) ∧
    (∀ ds : List Row, stateFilter none ds = ds ∧ stateFilter (some []) ds = ds) ∧
    (∀ (budget : Rat) (trend : Option (List Char)) (inc : Bool) (ds : List Row),
        filter_by_budget budget none trend inc ds
          = filter_by_budget budget (some []) trend inc ds) ∧
    (∀ (limit : Nat) (inc : Bool) (ds : List Row),
        cheapest_metros limit none inc ds = cheapest_metros limit (some []) inc ds) ∧
    (∀ (limit : Nat) (inc : Bool) (ds : List Row),
        most_expensive_metros limit none inc ds = most_expensive_metros limit (some []) inc ds) ∧
    (∀ (limit : Nat) (h : Horizon) (d : Direction) (inc : Bool) (ds : List Row),
        best_rent_growth limit h d none inc ds = best_rent_growth limit h d (some []) inc ds) := by
  refine ⟨?_, ?_, ?_, ?_, fun ds => ⟨rfl, rfl⟩, fun _ _ _ _ => rfl, fun _ _ _ => rfl,
    fun _ _ _ => rfl, fun _ _ _ _ _ => rfl⟩
  · intro s budget trend inc ds r hs hr
    exact stateFilter_not_null hs (mem_trendFilter (mem_filter_by_budget hr))
  · intro s limit inc ds r hs hr
    unfold cheapest_metros at hr
    have h1 := List.take_subset _ _ hr
    have h2 := (List.mem_insertionSort rentLe).mp h1
    exact stateFilter_not_null hs (List.mem_filter.mp h2).1
  · intro s limit inc ds r hs hr
    unfold most_expensive_metros at hr
    have h1 := (List.mem_insertionSort rentGe).mp (List.take_subset _ _ hr)
    exact stateFilter_not_null hs (List.mem_filter.mp h1).1
  · intro s limit h d inc ds r hs hr
    unfold best_rent_growth at hr
    split at hr
    · have h1 := (List.mem_insertionSort (pctLe h)).mp (List.take_subset _ _ hr)
      exact stateFilter_not_null hs (List.mem_filter.mp h1).1
    · have h1 := (List.mem_insertionSort (pctGe h)).mp (List.take_subset _ _ hr)
      exact stateFilter_not_null hs (List.mem_filter.mp h1).1

/-- Witness for C10: a concrete run of the cheapest query with state "TX"
whose returned row is not null-state. -/
theorem claim_C10_witness :
    w10Row ∈ cheapest_metros 10 (some (toL ("TX"))) false [w10NullRow, w10Row] ∧
    w10Row.state ≠ none := by
  have hm : w10Row ∈ cheapest_metros 10 (some (toL ("TX"))) false [w10NullRow, w10Row] := by
    decide
  exact ⟨hm, claim_C10.2.1 (toL ("TX")) 10 false [w10NullRow, w10Row] w10Row (by decide) hm⟩

/-- Counterexample for C3: `compare_metros` has no include flag and happily
returns the "United States" aggregate row, and `available_states` (also
flagless) reports data coming from that row. -/
theorem claim_C3_counterexample :
    compare_metros (toL ("United States")) (toL ("United States")) [usRowC3]
      = Except.ok (some usRowC3, some usRowC3) ∧
    available_states [usRowC3] = [toL ("ZZ")] := by decide

/-- C3 as amended: the four ranking/filter operations exclude the aggregate
row by default, and apply no region-name exclusion when the flag is set;
`available_states` and `compare_metros` take no flag (see counterexample). -/
theorem claim_C3_amended :
    (∀ (budget : Rat) (state trend : Option (List Char)) (ds : List Row) (r : Row),
        r ∈ filter_by_budget budget state trend false ds →
        r.regionName ≠ some (toL ("United States"))) ∧
    (∀ (limit : Nat) (state : Option (List Char)) (ds : List Row) (r : Row),
        r ∈ cheapest_metros limit state false ds →
        r.regionName ≠ some (toL ("United States"))) ∧
    (∀ (limit : Nat) (state : Option (List Char)) (ds : List Row) (r : Row),
        r ∈ most_expensive_metros limit state false ds →
        r.regionName ≠ some (toL ("United States"))) ∧
    (∀ (limit : Nat) (h : Horizon) (d : Direction) (state : Option (List Char))
        (ds : List Row) (r : Row),
        r ∈ best_rent_growth limit h d state false ds →
        r.regionName ≠ some (toL ("United States"))) ∧
    (∀ ds : List Row, usFilter true ds = ds) := by
  refine ⟨?_, ?_, ?_, ?_, fun _ => rfl⟩
  · intro budget state trend ds r hr
    have h1 := mem_stateFilter (mem_trendFilter (mem_filter_by_budget hr))
    exact usFilter_excludes (List.mem_filter.mp (List.mem_filter.mp h1).1).1
  · intro limit state ds r hr
    unfold cheapest_metros at hr
    have h1 := (List.mem_insertionSort rentLe).mp (List.take_subset _ _ hr)
    exact usFilter_excludes (mem_stateFilter (List.mem_filter.mp h1).1)
  · intro limit state ds r hr
    unfold most_expensive_metros at hr
    have h1 := (List.mem_insertionSort rentGe).mp (List.take_subset _ _ hr)
    exact usFilter_excludes (mem_stateFilter (List.mem_filter.mp h1).1)
  · intro limit h d state ds r hr
    unfold best_rent_growth at hr
    split at hr
    · have h1 := (List.mem_insertionSort (pctLe h)).mp (List.take_subset _ _ hr)
      exact usFilter_excludes (mem_stateFilter (List.mem_filter.mp h1).1)
    · have h1 := (List.mem_insertionSort (pctGe h)).mp (List.take_subset _ _ hr)
      exact usFilter_excludes (mem_stateFilter (List.mem_filter.mp h1).1)

/-- Witness for C3 as amended, on a dataset containing the aggregate row. -/
theorem claim_C3_witness :
    w3Row ∈ cheapest_metros 5 none false [usRowC3, w3Row] ∧
    w3Row.regionName ≠ some (toL ("United States")) := by
  have hm : w3Row ∈ cheapest_metros 5 none false [usRowC3, w3Row] := by decide
  exact ⟨hm, claim_C3_amended.2.1 5 none [usRowC3, w3Row] w3Row hm⟩

/-- Two lists sorted by the same relation that are permutations of each
other are equal, given antisymmetry on the members actually involved (the
global relation `rentLe` is not antisymmetric, but it is on rows with
pairwise distinct rents). -/
theorem eq_of_perm_of_sorted_anti {α : Type} {r : α → α → Prop} :
    ∀ {l₁ l₂ : List α}, l₁.Perm l₂ → List.Sorted r l₁ → List.Sorted r l₂ →
      (∀ a ∈ l₁, ∀ b ∈ l₁, r a b → r b a → a = b) → l₁ = l₂ := by
  intro l₁
  induction l₁ with
  | nil =>
    intro l₂ hp _ _ _
    exact (hp.symm.eq_nil).symm
  | cons a t ih =>
    intro l₂ hp hs₁ hs₂ hanti
    cases l₂ with
    | nil => exact absurd hp.eq_nil (by simp)
    | cons b t₂ =>
      have hab : a = b := by
        by_contra hne
        have hamem : a ∈ b :: t₂ := hp.mem_iff.mp (List.mem_cons_self a t)
        have hat₂ : a ∈ t₂ := by
          rcases List.mem_cons.mp hamem with h | h
          · exact absurd h hne
          · exact h
        have hbmem : b ∈ a :: t := hp.mem_iff.mpr (List.mem_cons_self b t₂)
        have hbt : b ∈ t := by
          rcases List.mem_cons.mp hbmem with h | h
          · exact absurd h.symm hne
          · exact h
        have hrab : r a b := (List.sorted_cons.mp hs₁).1 b hbt
        have hrba : r b a := (List.sorted_cons.mp hs₂).1 a hat₂
        exact hne (hanti a (List.mem_cons_self a t) b (List.mem_cons_of_mem a hbt) hrab hrba)
      subst hab
      have hpt : t.Perm t₂ := hp.cons_inv
      have heq := ih hpt (List.sorted_cons.mp hs₁).2 (List.sorted_cons.mp hs₂).2
        (fun x hx y hy hxy hyx =>
          hanti x (List.mem_cons_of_mem a hx) y (List.mem_cons_of_mem a hy) hxy hyx)
      rw [heq]

/-- C2 as amended: once `N` is at least the number of rows surviving the
default filters (so that `head(N)` truncates nothing), the two queries
return orderings of exactly those rows, sorted non-decreasing respectively
non-increasing by current rent; when the surviving rents are pairwise
distinct the lists are exact reverses of each other.  (The code's default
quicksort leaves the order among tied rents unspecified, so nothing
tie-dependent is claimed.) -/
theorem claim_C2_amended (N : Nat) (state : Option (List Char)) (inc : Bool) (ds : List Row)
    (hN : ((stateFilter state (usFilter inc ds)).filter
      (fun r => r.currentRent.isSome)).length ≤ N) :
    (cheapest_metros N state inc ds).Perm (most_expensive_metros N state inc ds) ∧
    (cheapest_metros N state inc ds).Perm
      ((stateFilter state (usFilter inc ds)).filter (fun r => r.currentRent.isSome)) ∧
    List.Sorted rentLe (cheapest_metros N state inc ds) ∧
    List.Sorted rentGe (most_expensive_metros N state inc ds) ∧
    ((∀ a ∈ (stateFilter state (usFilter inc ds)).filter (fun r => r.currentRent.isSome),
        ∀ b ∈ (stateFilter state (usFilter inc ds)).filter (fun r => r.currentRent.isSome),
        rentKey a = rentKey b → a = b) →
      cheapest_metros N state inc ds = (most_expensive_metros N state inc ds).reverse) := by
  unfold cheapest_metros most_expensive_metros
  have hA : (List.insertionSort rentLe ((stateFilter state (usFilter inc ds)).filter
      (fun r => r.currentRent.isSome))).take N
      = List.insertionSort rentLe ((stateFilter state (usFilter inc ds)).filter
        (fun r => r.currentRent.isSome)) :=
    List.take_of_length_le (by rw [List.length_insertionSort]; exact hN)
  have hB : (List.insertionSort rentGe ((stateFilter state (usFilter inc ds)).filter
      (fun r => r.currentRent.isSome))).take N
      = List.insertionSort rentGe ((stateFilter state (usFilter inc ds)).filter
        (fun r => r.currentRent.isSome)) :=
    List.take_of_length_le (by rw [List.length_insertionSort]; exact hN)
  rw [hA, hB]
  have hpermA := List.perm_insertionSort rentLe
    ((stateFilter state (usFilter inc ds)).filter (fun r => r.currentRent.isSome))
  have hpermB := List.perm_insertionSort rentGe
    ((stateFilter state (usFilter inc ds)).filter (fun r => r.currentRent.isSome))
  refine ⟨hpermA.trans hpermB.symm, hpermA, List.sorted_insertionSort rentLe _,
    List.sorted_insertionSort rentGe _, ?_⟩
  intro hinj
  apply eq_of_perm_of_sorted_anti (r := rentLe)
  · exact hpermA.trans (hpermB.symm.trans (List.reverse_perm _).symm)
  · exact List.sorted_insertionSort rentLe _
  · exact List.pairwise_reverse.mpr (List.sorted_insertionSort rentGe _)
  · intro x hx y hy hxy hyx
    exact hinj x ((List.mem_insertionSort rentLe).mp hx)
      y ((List.mem_insertionSort rentLe).mp hy) (le_antisymm hxy hyx)

/-- Counterexample for C2 as stated: with `N = 1` and two rows of distinct
rents, the two queries return different single rows, so the results are not
reorderings of each other at all. -/
theorem claim_C2_counterexample :
    cheapest_metros 1 none false [cheapRowC2, richRowC2] = [cheapRowC2] ∧
    most_expensive_metros 1 none false [cheapRowC2, richRowC2] = [richRowC2] ∧
    cheapest_metros 1 none false [cheapRowC2, richRowC2]
      ≠ (most_expensive_metros 1 none false [cheapRowC2, richRowC2]).reverse := by decide

/-- Witness for C2 as amended: with `N` larger than the dataset and the two
rents distinct, the reverse relationship holds exactly. -/
theorem claim_C2_witness :
    cheapest_metros 5 none false [cheapRowC2, richRowC2]
      = (most_expensive_metros 5 none false [cheapRowC2, richRowC2]).reverse :=
  (claim_C2_amended 5 none false [cheapRowC2, richRowC2] (by decide)).2.2.2.2 (by decide)

/-- Counterexample for C4 as stated: a zero baseline with a non-zero current
rent yields positive infinity (pandas division), not null. -/
theorem claim_C4_counterexample :
    pctChange (some 0) (some 100) = PFloat.pinf ∧ PFloat.pinf ≠ PFloat.nan := by decide

/-- C4 as amended: the percentage change equals the formula whenever the
baseline is non-null and non-zero and the current rent is non-null; it is
null when either input is null or when both are zero (0/0); with a zero
baseline and non-zero current rent it is a signed infinity, not null. -/
theorem claim_C4_amended :
    (∀ r : RawRow,
      (compute_growth_row r).rent3yrPct = pctChange r.rent2022 r.currentRent ∧
      (compute_growth_row r).rent5yrPct = pctChange r.rent2021 r.currentRent) ∧
    (∀ b c : Rat, b ≠ 0 → pctChange (some b) (some c) = PFloat.fin ((c - b) / b * 100)) ∧
    (∀ c : Option Rat, pctChange none c = PFloat.nan) ∧
    (∀ b : Option Rat, pctChange b none = PFloat.nan) ∧
    pctChange (some 0) (some 0) = PFloat.nan ∧
    (∀ c : Rat, 0 < c → pctChange (some 0) (some c) = PFloat.pinf) ∧
    (∀ c : Rat, c < 0 → pctChange (some 0) (some c) = PFloat.ninf) := by
  refine ⟨fun r => ⟨rfl, rfl⟩, ?_, fun c => by cases c <;> rfl, ?_, rfl, ?_, ?_⟩
  · intro b c hb
    simp [pctChange, hb]
  · intro b
    cases b <;> rfl
  · intro c hc
    simp [pctChange, hc, hc.ne.symm]
  · intro c hc
    simp [pctChange, hc, hc.ne, asymm hc]

/-- Witness for C4 as amended, at the 3-year horizon of a concrete row. -/
theorem claim_C4_witness :
    pctChange (some 1200) (some 1080) = PFloat.fin ((1080 - 1200) / 1200 * 100) :=
  claim_C4_amended.2.1 1200 1080 (by norm_num)

/-- Claim C6: path resolution tries the module directory, then its data/
subdirectory, then the working directory, first hit winning; importing the
module performs no load (the cache is simply None), and the very first load
fails with the data-not-found error exactly when no candidate exists. -/
theorem claim_C6 (here : List Char) (fs : FileSystem) (read : List Char → List RawRow) :
    (fs.ex (joinP here dataFilename) = true →
        get_data_path here fs = joinP here dataFilename) ∧
    (fs.ex (joinP here dataFilename) = false →
        fs.ex (joinP (joinP here (toL ("data"))) dataFilename) = true →
        get_data_path here fs = joinP (joinP here (toL ("data"))) dataFilename) ∧
    (fs.ex (joinP here dataFilename) = false →
        fs.ex (joinP (joinP here (toL ("data"))) dataFilename) = false →
        get_data_path here fs = dataFilename) ∧
    importModule.cache = none ∧
    (load_data_cached importModule here fs read = Except.error DataError.dataNotFound ↔
      (fs.ex (joinP here dataFilename) = false ∧
       fs.ex (joinP (joinP here (toL ("data"))) dataFilename) = false ∧
       fs.ex dataFilename = false)) := by
  refine ⟨?_, ?_, ?_, rfl, ?_⟩
  · intro h1
    unfold get_data_path
    rw [if_pos h1]
  · intro h1 h2
    unfold get_data_path
    rw [if_neg (by simp [h1]), if_pos h2]
  · intro h1 h2
    unfold get_data_path
    rw [if_neg (by simp [h1]), if_neg (by simp [h2])]
  · cases hb1 : fs.ex (joinP here dataFilename) with
    | true =>
      simp [load_data_cached, importModule, load_data, read_table, get_data_path, hb1]
    | false =>
      cases hb2 : fs.ex (joinP (joinP here (toL ("data"))) dataFilename) with
      | true =>
        simp [load_data_cached, importModule, load_data, read_table, get_data_path, hb1, hb2]
      | false =>
        cases hb3 : fs.ex dataFilename with
        | true =>
          simp [load_data_cached, importModule, load_data, read_table, get_data_path,
            hb1, hb2, hb3]
        | false =>
          simp [load_data_cached, importModule, load_data, read_table, get_data_path,
            hb1, hb2, hb3]

/-- Witness for C6: with an empty filesystem the first load fails with the
data-not-found error; import alone established only an empty cache. -/
theorem claim_C6_witness :
    importModule.cache = none ∧
    load_data_cached importModule [] { ex := fun _ => false } (fun _ => [])
      = Except.error DataError.dataNotFound := by
  have h := claim_C6 [] { ex := fun _ => false } (fun _ => [])
  exact ⟨h.2.2.2.1, h.2.2.2.2.mpr ⟨rfl, rfl, rfl⟩⟩

/-- `best_rent_growth` with a positive limit returns the empty list exactly
when no row surviving the aggregate-row and state filters has a non-null
percentage change for the horizon. -/
theorem best_rent_growth_eq_nil_iff {limit : Nat} (hlim : limit ≠ 0) {h : Horizon}
    {d : Direction} {st : Option (List Char)} {inc : Bool} {ds : List Row} :
    best_rent_growth limit h d st inc ds = [] ↔
      ∀ r ∈ stateFilter st (usFilter inc ds), pctKey h r = PFloat.nan := by
  simp only [best_rent_growth]
  constructor
  · intro hempty
    rw [List.take_eq_nil_iff] at hempty
    rcases hempty with h0 | hsortnil
    · exact absurd h0 hlim
    · have hbase : (stateFilter st (usFilter inc ds)).filter
          (fun r => pctKey h r != PFloat.nan) = [] := by
        split at hsortnil <;>
          · have hlen := congrArg List.length hsortnil
            rw [List.length_insertionSort] at hlen
            exact List.eq_nil_of_length_eq_zero hlen
      rw [List.filter_eq_nil_iff] at hbase
      intro r hr
      have := hbase r hr
      simpa using this
  · intro hall
    have hbase : (stateFilter st (usFilter inc ds)).filter
        (fun r => pctKey h r != PFloat.nan) = [] := by
      rw [List.filter_eq_nil_iff]
      intro r hr
      simp [hall r hr]
    rw [hbase]
    split <;> simp

/-- C5 as amended: any message that reaches the growth branch with upward
intent and 3-year horizon (non-empty after stripping, not a greeting,
relocation-related, parsed state absent or present in the dataset's states,
not a compare request) never raises; it gets the explicit no-match reply
exactly when no row surviving the aggregate-row and state filters has a
non-null 3-year change, and otherwise the first ten of those survivors
sorted by non-increasing 3-year change - a listing that may consist
entirely of non-positive changes (see counterexample). -/
theorem claim_C5_amended (message : List Char) (ds : List Row) (st : Option (List Char))
    (h0 : stripL message ≠ [])
    (h1 : is_greeting (stripL message) = false)
    (h2 : is_relocation_related (stripL message) = true)
    (h3 : parse_state (stripL message) = st)
    (h3b : ∀ s, st = some s → available_states ds ≠ [] → s ∈ available_states ds)
    (h4 : parse_compare_request (stripL message) = none)
    (h5 : parse_growth_intent (stripL message) = some (Horizon.h3, Direction.up)) :
    chat message ds =
      (if best_rent_growth 10 Horizon.h3 Direction.up st false ds = []
       then Except.ok ChatResponse.growthNoMatch
       else Except.ok (ChatResponse.growthList
        (best_rent_growth 10 Horizon.h3 Direction.up st false ds)
        Horizon.h3 Direction.up st)) ∧
    (best_rent_growth 10 Horizon.h3 Direction.up st false ds = [] ↔
      ∀ r ∈ stateFilter st (usFilter false ds), pctKey Horizon.h3 r = PFloat.nan) ∧
    List.Sorted (pctGe Horizon.h3) (best_rent_growth 10 Horizon.h3 Direction.up st false ds) := by
  refine ⟨?_, best_rent_growth_eq_nil_iff (by simp), ?_⟩
  · simp only [chat, h3]
    rw [if_neg h0, if_neg (by simp [h1]), if_neg (by simp [h2])]
    cases st with
    | none =>
      dsimp only
      simp only [chatAfterState, h4, h5]
    | some s =>
      dsimp only
      have hguard : ¬((available_states ds != [] && !((available_states ds).contains s))
          = true) := by
        intro hcond
        rw [Bool.and_eq_true] at hcond
        obtain ⟨hne, hnc⟩ := hcond
        have hne2 : available_states ds ≠ [] := by simpa using hne
        have hmem := h3b s rfl hne2
        have hcont : (available_states ds).contains s = true :=
          List.elem_eq_true_of_mem hmem
        rw [hcont] at hnc
        exact absurd hnc (by simp)
      rw [if_neg hguard]
      simp only [chatAfterState, h4, h5]
  · simp only [best_rent_growth]
    rw [if_neg (by decide : ¬(Direction.up = Direction.down))]
    exact List.Pairwise.sublist (List.take_sublist _ _)
      (List.sorted_insertionSort (pctGe Horizon.h3) _)

/-- Counterexample for C5 as stated: with a single row whose 3-year change is
-10% (so no positive-change rows exist), the growth query for up-and-coming
markets returns a listing containing that negative-change metro, not the
"couldn't find" reply. -/
theorem claim_C5_counterexample :
    chat (toL ("up-and-coming rental markets")) [growthRowC5]
      = Except.ok (ChatResponse.growthList [growthRowC5] Horizon.h3 Direction.up none) ∧
    growthRowC5.rent3yrPct = PFloat.fin (-10) ∧ (-10 : Rat) < 0 := by
  refine ⟨by decide, rfl, by norm_num⟩

/-- Witness for C5 as amended: on the empty dataset the same message gets the
explicit no-match reply. -/
theorem claim_C5_witness :
    chat (toL ("up-and-coming rental markets")) [] = Except.ok ChatResponse.growthNoMatch := by
  have h := claim_C5_amended (toL ("up-and-coming rental markets")) [] none (by decide)
    (by decide) (by decide) (by decide) (fun s hs => absurd hs (by simp)) (by decide) (by decide)
  rw [h.1, if_pos (by decide)]

/-- Claim C8: tier 1 ("in XX" validated against the state set) decides the
result whenever it confirms a code; otherwise the bare uppercase-token tier
decides; and the three specified examples parse as stated. -/
theorem claim_C8 :
    (∀ (text c : List Char), tier1Code text = some c → parse_state text = some c) ∧
    (∀ text : List Char, tier1Code text = none → parse_state text = tier2 text) ∧
    parse_state (toL ("apartment in CA")) = some (toL ("CA")) ∧
    parse_state (toL ("Portland, ME")) = some (toL ("ME")) ∧
    parse_state (toL ("show me options")) = none := by
  refine ⟨?_, ?_, by decide, by decide, by decide⟩
  · intro text c hc
    unfold tier1Code at hc
    unfold parse_state
    cases ht : tier1 text with
    | none => rw [ht] at hc; exact absurd hc (by simp)
    | some p =>
      obtain ⟨a, b⟩ := p
      simp only [ht] at hc
      simp only [ht]
      split at hc
      next hm =>
        split
        next => exact hc
        next hm2 => exact absurd hm hm2
      next hm => exact absurd hc (by simp)
  · intro text ht1
    unfold tier1Code at ht1
    unfold parse_state
    cases ht : tier1 text with
    | none => simp only [ht]
    | some p =>
      obtain ⟨a, b⟩ := p
      simp only [ht] at ht1
      simp only [ht]
      split at ht1
      next hm => exact absurd ht1 (by simp)
      next hm =>
        split
        next hm2 => exact absurd hm2 hm
        next => rfl

/-- Witness for C8: on "apartment in CA" tier 1 already confirms "CA", and
the theorem turns that into the parse result. -/
theorem claim_C8_witness :
    tier1Code (toL ("apartment in CA")) = some (toL ("CA")) ∧
    parse_state (toL ("apartment in CA")) = some (toL ("CA")) :=
  ⟨by decide, claim_C8.1 (toL ("apartment in CA")) (toL ("CA")) (by decide)⟩

theorem scanNums_frac_ne_nil : ∀ (r ds fs : List Char),
    scanNums (ScanMode.frac ds fs) r ≠ [] := by
  intro r
  induction r with
  | nil => intro ds fs; simp [scanNums]
  | cons c t ih =>
    intro ds fs
    simp only [scanNums]
    split
    · exact ih _ _
    · simp

theorem scanNums_intp_ne_nil : ∀ (r ds : List Char),
    scanNums (ScanMode.intp ds) r ≠ [] := by
  intro r
  induction r with
  | nil => intro ds; simp [scanNums]
  | cons c t ih =>
    intro ds
    simp only [scanNums]
    split
    · exact ih _
    · split
      · exact scanNums_frac_ne_nil t _ _
      · simp

theorem scanNums_out_nil_iff : ∀ l : List Char,
    scanNums ScanMode.out l = [] ↔ ∀ c ∈ l, c.isDigit = false := by
  intro l
  induction l with
  | nil => simp [scanNums]
  | cons c t ih =>
    simp only [scanNums]
    split
    next hdig =>
      constructor
      · intro h'
        exact absurd h' (scanNums_intp_ne_nil t [c])
      · intro hall
        have := hall c (List.mem_cons_self c t)
        rw [this] at hdig
        exact absurd hdig (by simp)
    next hdig =>
      rw [ih]
      constructor
      · intro hall c' hc'
        rcases List.mem_cons.mp hc' with rfl | hmem
        · exact Bool.not_eq_true _ ▸ (by simpa using hdig)
        · exact hall c' hmem
      · intro hall c' hc'
        exact hall c' (List.mem_cons_of_mem c hc')

theorem budget_clean_digit_iff (t : List Char) :
    (∀ c ∈ budget_clean t, c.isDigit = false) ↔ (∀ c ∈ t, c.isDigit = false) := by
  unfold budget_clean
  constructor
  · intro h c hc
    by_cases hcomma : c = ','
    · subst hcomma; decide
    · by_cases hdol : c = '$'
      · subst hdol; decide
      · have hcf : c ∈ t.filter (fun c => c != ',') :=
          List.mem_filter.mpr ⟨hc, by simp [hcomma]⟩
        have hcm := List.mem_map_of_mem (fun c => if c = '$' then ' ' else c) hcf
        simp only [hdol, if_false, ite_false] at hcm
        exact h c hcm
  · intro h c hc
    obtain ⟨c0, hc0, hmap⟩ := List.mem_map.mp hc
    have hc0t : c0 ∈ t := (List.mem_filter.mp hc0).1
    by_cases hdol : c0 = '$'
    · rw [← hmap, hdol]
      decide
    · rw [← hmap, if_neg hdol]
      exact h c0 hc0t

theorem parse_budget_none_iff (t : List Char) :
    parse_budget t = none ↔ ∀ c ∈ t, c.isDigit = false := by
  rw [← budget_clean_digit_iff, ← scanNums_out_nil_iff]
  simp only [parse_budget, findNums]
  constructor
  · intro h
    cases hn : scanNums ScanMode.out (budget_clean t) with
    | nil => rfl
    | cons v vs =>
      rw [hn] at h
      cases hf : (v :: vs).find? (fun v => decide (300 ≤ v ∧ v ≤ 20000)) with
      | some w => rw [hf] at h; exact absurd h (by simp)
      | none => rw [hf] at h; exact absurd h (by simp)
  · intro h
    rw [h]
    rfl

/-- Claim C9: budget extraction returns the first collected numeral lying in
[300, 20000], else the first numeral overall, and reports no budget exactly
when the text has no digit at all; the two specified examples parse as
stated. -/
theorem claim_C9 :
    (∀ (text : List Char) (v : Rat),
        (findNums text).find? (fun v => decide (300 ≤ v ∧ v ≤ 20000)) = some v →
        parse_budget text = some v) ∧
    (∀ text : List Char,
        (findNums text).find? (fun v => decide (300 ≤ v ∧ v ≤ 20000)) = none →
        parse_budget text = (findNums text).head?) ∧
    (∀ text : List Char, parse_budget text = none ↔ ∀ c ∈ text, c.isDigit = false) ∧
    parse_budget (toL ("I have a $2,500 budget")) = some 2500 ∧
    parse_budget (toL ("under $1,800 per month")) = some 1800 := by
  refine ⟨?_, ?_, parse_budget_none_iff, by decide, by decide⟩
  · intro text v h
    simp only [parse_budget]
    rw [h]
  · intro text h
    simp only [parse_budget]
    rw [h]

/-- Witness for C9: the range rule applied at "I have a $2,500 budget". -/
theorem claim_C9_witness :
    parse_budget (toL ("I have a $2,500 budget")) = some 2500 :=
  claim_C9.1 (toL ("I have a $2,500 budget")) 2500 (by decide)

end MrMovin
